import Mathlib

/-!
Verification development for the `drf-async-view` request authorization
pipeline (`src/drfasyncview/requests.py` and `src/drfasyncview/views.py`).

The Python code is shallowly embedded: each check capability (authenticator,
permission, throttle) is a record carrying the introspection flag
(`asyncio.iscoroutinefunction`) together with the value-level outcome of
invoking it on the current request.  `asyncio.gather(..., return_exceptions=True)`
returns its results indexed by original task position regardless of the order
in which the event loop completes the tasks; this is modelled explicitly by
`gatherFill`, which fills a result slot per completed task following an
arbitrary completion schedule, so that schedule-independence is a provable
statement rather than an assumption.
-/

namespace DrfAsyncView

/-- The `rest_framework.exceptions.APIException` subclasses that the pipeline
creates or inspects (the error taxonomy of the spec). -/
inductive APIExc where
  | authenticationFailed (detail : String)
  | notAuthenticated (detail : String)
  | permissionDenied (message code : Option String)
  | throttled (wait : Option Nat)
  | methodNotAllowed (method : String)
  deriving DecidableEq, Repr

/-- A Python exception as raised by the pipeline: `TypeError`s raised by the
pipeline itself, `APIException`s, and any other (unexpected) exception. -/
inductive PyExc where
  | typeError (msg : String)
  | apiExc (e : APIExc)
  | otherExc (msg : String)
  deriving DecidableEq, Repr

/-! ## Authenticator evaluator (`AsyncRequest.authenticate`, requests.py) -/

/-- What a single call `authenticator.authenticate(request)` does: raise an
`APIException`, raise some other exception, return a `(user, auth)` tuple,
or return `None`. -/
inductive AuthOutcome where
  | raiseApi (e : APIExc)
  | raiseOther (msg : String)
  | pair (user tok : String)
  | nothing
  deriving DecidableEq, Repr

/-- An authenticator capability: the `asyncio.iscoroutinefunction` introspection
result for its `authenticate` attribute, and the outcome of invoking it. -/
structure Authenticator where
  isAsync : Bool
  outcome : AuthOutcome
  deriving DecidableEq, Repr

/-- The identity-related fields of the request: `self._authenticator` (as the
index of the winning authenticator), `self.user` and `self.auth`. -/
structure AuthState where
  authenticator : Option Nat
  user : Option String
  auth : Option String
  deriving DecidableEq, Repr

/-- The reset performed first by `authenticate`:
`self._authenticator, self.user, self.auth = None, None, None`.
`Request._not_authenticated()` restores the same unset fields. -/
def resetState : AuthState := ⟨none, none, none⟩

/-- The selection loop of `authenticate` over the gathered
`authentication_results`, scanning indices in original order: an
`APIException` result triggers `_not_authenticated()` and is raised; any
other exception result is raised; a non-`None` tuple at index `idx` sets
`_authenticator`, `user`, `auth` and returns.  The returned pair is the
final field state together with the raised exception, if any. -/
def selectResult : List AuthOutcome → Nat → AuthState × Option PyExc
  | [], _ => (resetState, none)
  | o :: rest, idx =>
    match o with
    | .raiseApi e => (resetState, some (.apiExc e))
    | .raiseOther m => (resetState, some (.otherExc m))
    | .pair u t => (⟨some idx, some u, some t⟩, none)
    | .nothing => selectResult rest (idx + 1)

/-- Message of the `TypeError` raised when a non-coroutine authenticator is
found (apostrophes elided). -/
def typeErrorMsg : String := "authenticate() should be async function"

/-- `AsyncRequest.authenticate` (requests.py lines 8-35): reset the fields,
raise `TypeError` if any authenticator is not a coroutine function, gather
all authenticators concurrently, then run the selection loop.  Returns the
final field state and the raised exception, if any. -/
def authenticate (auths : List Authenticator) : AuthState × Option PyExc :=
  if auths.all (·.isAsync) then
    selectResult (auths.map (·.outcome)) 0
  else
    (resetState, some (.typeError typeErrorMsg))

/-- Model of `asyncio.gather(..., return_exceptions=True)` under an explicit
completion schedule: slot `i` of the result list is filled with task `i`'s
outcome when the scheduler completes task `i`; `order` lists task indices in
completion order.  A slot still `none` was never completed. -/
def gatherFill (outcomes : List AuthOutcome) (order : List Nat) :
    List (Option AuthOutcome) :=
  order.foldl (fun acc i => acc.set i outcomes[i]?)
    (List.replicate outcomes.length none)

/-- `AsyncRequest.authenticate` with the event loop's completion schedule made
explicit: identical to `authenticate` except that the gathered result list is
assembled by `gatherFill` following `order`. -/
def authenticateSched (auths : List Authenticator) (order : List Nat) :
    AuthState × Option PyExc :=
  if auths.all (·.isAsync) then
    selectResult
      ((gatherFill (auths.map (·.outcome)) order).map (fun o => o.getD .nothing)) 0
  else
    (resetState, some (.typeError typeErrorMsg))

/-- Spec-side selection policy ("pick the result belonging to the lowest
original list index whose outcome was a non-empty pair"), written from the
spec's words for the refinement claim: the lowest index whose outcome is a
non-`None` pair, with its pair. -/
def specLowestNonEmptyAux : Nat → List Authenticator → Option (Nat × String × String)
  | _, [] => none
  | i, a :: rest =>
    match a.outcome with
    | .pair u t => some (i, u, t)
    | _ => specLowestNonEmptyAux (i + 1) rest

/-- Spec-side: lowest-index non-empty authentication result, if any. -/
def specLowestNonEmpty (auths : List Authenticator) : Option (Nat × String × String) :=
  specLowestNonEmptyAux 0 auths

/-- Spec-side expected result of the authentication stage when no authenticator
raises: the lowest-index non-empty pair wins, otherwise the identity is left
anonymous; in both cases no exception is raised. -/
def specAuthResult (auths : List Authenticator) : AuthState × Option PyExc :=
  match specLowestNonEmpty auths with
  | some (i, u, t) => (⟨some i, some u, some t⟩, none)
  | none => (resetState, none)

/-- `true` iff invoking the authenticator raises (either kind of exception). -/
def isExcOutcome : AuthOutcome → Bool
  | .raiseApi _ => true
  | .raiseOther _ => true
  | _ => false

/-- The exception raised by an authenticator outcome, if it raises. -/
def excOutcomePayload : AuthOutcome → Option PyExc
  | .raiseApi e => some (.apiExc e)
  | .raiseOther m => some (.otherExc m)
  | _ => none

/-- The winning-pair writes performed by the selection loop, as
`(index, user, auth)` triples, instrumenting `selectResult`: the only
assignment of a winning pair happens in the non-`None` branch, which
returns immediately. -/
def selectWrites : List AuthOutcome → Nat → List (Nat × String × String)
  | [], _ => []
  | o :: rest, idx =>
    match o with
    | .raiseApi _ => []
    | .raiseOther _ => []
    | .pair u t => [(idx, u, t)]
    | .nothing => selectWrites rest (idx + 1)

/-- Winning-pair writes performed by a full `authenticate` call (none when the
`TypeError` pre-check aborts the stage). -/
def authWrites (auths : List Authenticator) : List (Nat × String × String) :=
  if auths.all (·.isAsync) then selectWrites (auths.map (·.outcome)) 0 else []

/-! ## Permission evaluator (`AsyncAPIView.check_permissions`, views.py) -/

/-- What a single call `permission.has_permission(request, self)` does:
return a boolean, or raise an exception. -/
inductive PermOutcome where
  | ok (granted : Bool)
  | exc (e : PyExc)
  deriving DecidableEq, Repr

/-- A permission capability: introspection flag for `has_permission`, the
outcome of invoking it, and its optional `message` / `code` attributes. -/
structure Permission where
  isAsync : Bool
  outcome : PermOutcome
  message : Option String
  code : Option String
  deriving DecidableEq, Repr

/-- `true` iff invoking the permission check raises. -/
def isExcPerm : PermOutcome → Bool
  | .exc _ => true
  | _ => false

/-- The DRF collaborator `APIView.permission_denied` as contracted by the
spec's taxonomy: raise `PermissionDenied` carrying the denying permission's
`message` and `code` attributes (`None` when absent). -/
def permission_denied (p : Permission) : PyExc :=
  .apiExc (.permissionDenied p.message p.code)

/-- `AsyncAPIView._check_sync_permissions`: for each permission in order,
invoke `has_permission` (an exception it raises propagates immediately) and
call `permission_denied` when it returns a falsy value. -/
def checkSyncPermissions : List Permission → Option PyExc
  | [] => none
  | p :: rest =>
    match p.outcome with
    | .exc e => some e
    | .ok false => some (permission_denied p)
    | .ok true => checkSyncPermissions rest

/-- `AsyncAPIView._check_async_permissions`: gather all `has_permission`
coroutines with `return_exceptions=True`, then scan results in original
order: an exception result is raised; a falsy result triggers
`permission_denied`. -/
def checkAsyncPermissions : List Permission → Option PyExc
  | [] => none
  | p :: rest =>
    match p.outcome with
    | .exc e => some e
    | .ok false => some (permission_denied p)
    | .ok true => checkAsyncPermissions rest

/-- `AsyncAPIView.check_permissions`: split the permission list into
asynchronous and synchronous members by `asyncio.iscoroutinefunction`
(each sublist keeping original order), run the synchronous checks first,
then the asynchronous ones. -/
def check_permissions (perms : List Permission) : Option PyExc :=
  let async_permissions := perms.filter (·.isAsync)
  let sync_permissions := perms.filter (fun p => !p.isAsync)
  match checkSyncPermissions sync_permissions with
  | some e => some e
  | none => checkAsyncPermissions async_permissions

/-- The combined scan order of the permission results: synchronous
permissions first, then asynchronous ones, each group in original list
order. -/
def combinedPerms (perms : List Permission) : List Permission :=
  perms.filter (fun p => !p.isAsync) ++ perms.filter (·.isAsync)

/-- First permission in combined order whose check did not grant (it raised
or returned a falsy value). -/
def firstNonGranting (perms : List Permission) : Option Permission :=
  (combinedPerms perms).find? (fun p => !(p.outcome == .ok true))

/-- The exception a non-granting permission produces: the raised exception
itself, or a `PermissionDenied` built from its message/code. -/
def nonGrantPayload (p : Permission) : PyExc :=
  match p.outcome with
  | .exc e => e
  | _ => permission_denied p

/-! ## Throttle evaluator (`AsyncAPIView.check_throttles`, views.py) -/

/-- A throttle capability: introspection flag for `allow_request`, the boolean
it returns, and the duration `wait()` returns (`None` when ambiguous).
Durations are modelled as naturals; only their ordering is used. -/
structure Throttle where
  isAsync : Bool
  allow : Bool
  wait : Option Nat
  deriving DecidableEq, Repr

/-- `AsyncAPIView._check_sync_throttles`: yield `throttle.wait()` for each
synchronous throttle whose `allow_request` returns a falsy value, in order. -/
def checkSyncThrottles (ts : List Throttle) : List (Option Nat) :=
  (ts.filter (fun t => !t.allow)).map (·.wait)

/-- `AsyncAPIView._check_async_throttles`: same collection for the
asynchronous throttles, awaited in order. -/
def checkAsyncThrottles (ts : List Throttle) : List (Option Nat) :=
  (ts.filter (fun t => !t.allow)).map (·.wait)

/-- `AsyncAPIView.check_throttles`: split throttles by
`asyncio.iscoroutinefunction(t.allow_request)`, collect the denied waits
(sync first, then async), and if any throttle denied, filter out `None`
durations and raise `Throttled` with `max(durations, default=None)` via the
DRF collaborator `APIView.throttled`. -/
def check_throttles (ts : List Throttle) : Option PyExc :=
  let async_throttles := ts.filter (·.isAsync)
  let sync_throttles := ts.filter (fun t => !t.isAsync)
  let throttle_durations :=
    checkSyncThrottles sync_throttles ++ checkAsyncThrottles async_throttles
  if throttle_durations.isEmpty then none
  else
    let durations := throttle_durations.reduceOption
    some (.apiExc (.throttled durations.max?))

/-- The denied throttles' wait durations in the order the claim describes:
synchronous throttles' durations first in list order, then asynchronous
throttles' durations in list order. -/
def deniedDurations (ts : List Throttle) : List (Option Nat) :=
  ((ts.filter (fun t => !t.isAsync)).filter (fun t => !t.allow)).map (·.wait)
    ++ ((ts.filter (·.isAsync)).filter (fun t => !t.allow)).map (·.wait)

/-! ## Dispatch controller (`AsyncAPIView.dispatch`, views.py) -/

/-- A registered handler method: only its `asyncio.iscoroutinefunction`
introspection result matters to the dispatch decision. -/
structure Handler where
  isAsync : Bool
  deriving DecidableEq, Repr

/-- The view's handler configuration: the `http_method_names` class attribute
and the attribute lookup `getattr(self, name, None)` restricted to handler
methods. -/
structure View where
  http_method_names : List String
  handlers : String → Option Handler

/-- Python's `str.lower()` restricted to the ASCII method names the dispatch
code lowercases. -/
def lowerStr (s : String) : String := ⟨s.data.map Char.toLower⟩

/-- Handler resolution in `dispatch`: if the lowercased request method is in
`http_method_names`, look the handler up by the lowercased name, else resolve
to `None`. -/
def resolveHandler (view : View) (method : String) : Option Handler :=
  if view.http_method_names.contains (lowerStr method) then
    view.handlers (lowerStr method)
  else
    none

/-- The handler-invocation decision of `dispatch` after the authorization
stages succeeded: raise `MethodNotAllowed(request.method)` when no handler
resolved; invoke the handler (no exception) when it is a coroutine function;
raise `TypeError` otherwise.  Returns the raised exception, if any. -/
def dispatchResolve (view : View) (method : String) : Option PyExc :=
  match resolveHandler view method with
  | none => some (.apiExc (.methodNotAllowed method))
  | some h =>
    if h.isAsync then none
    else some (.typeError "Handler should be async function")

/-- DRF's default `APIView.http_method_names`. -/
def defaultMethodNames : List String :=
  ["get", "post", "put", "patch", "delete", "head", "options", "trace"]

/-! ## Exception translation (`AsyncAPIView.handle_exception`, views.py) -/

/-- The mutable attributes of an in-flight exception that
`handle_exception` reads or writes: the exception value, its
`status_code`, and its `auth_header`. -/
structure ExcState where
  exc : PyExc
  status_code : Nat
  auth_header : Option String
  deriving DecidableEq, Repr

/-- The `isinstance(exc, (NotAuthenticated, AuthenticationFailed))` test. -/
def isAuthFailureExc : PyExc → Bool
  | .apiExc (.notAuthenticated _) => true
  | .apiExc (.authenticationFailed _) => true
  | _ => false

/-- Python truthiness of the collaborator's `get_authenticate_header` value
(`None` and the empty string are falsy). -/
def headerTruthy : Option String → Bool
  | none => false
  | some s => !s.isEmpty

/-- The authentication-failure coercion step of `handle_exception`: for
`NotAuthenticated`/`AuthenticationFailed`, attach the challenge header when
one is available (keeping the status), else coerce `status_code` to
`HTTPStatus.FORBIDDEN` (403); other exceptions pass through unchanged. -/
def handle_exception_auth (e : ExcState) (header : Option String) : ExcState :=
  if isAuthFailureExc e.exc then
    if headerTruthy header then { e with auth_header := header }
    else { e with status_code := 403 }
  else e

/-! ## State-threaded stage variants (for the write-discipline invariant)

The permission and throttle evaluators receive the request object, so a
check's outcome may depend on the identity fields; the stage functions below
thread the `AuthState` explicitly, with each capability's outcome a function
of that state.  The source of `check_permissions` / `check_throttles` /
`dispatch` contains no assignment to `request.user`, `request.auth` or
`request._authenticator`, which the embeddings reflect by returning the
input state unchanged alongside the stage result. -/

/-- A permission whose check may read the request's identity fields. -/
structure PermissionS where
  isAsync : Bool
  outcome : AuthState → PermOutcome
  message : Option String
  code : Option String

/-- A throttle whose check may read the request's identity fields. -/
structure ThrottleS where
  isAsync : Bool
  allow : AuthState → Bool
  wait : Option Nat

/-- `check_permissions` with the request state threaded through: the checks
read the state, and the stage never writes it. -/
def check_permissions_st (st : AuthState) (perms : List PermissionS) :
    AuthState × Option PyExc :=
  (st, check_permissions (perms.map fun p => ⟨p.isAsync, p.outcome st, p.message, p.code⟩))

/-- `check_throttles` with the request state threaded through: the checks
read the state, and the stage never writes it. -/
def check_throttles_st (st : AuthState) (ts : List ThrottleS) :
    AuthState × Option PyExc :=
  (st, check_throttles (ts.map fun t => ⟨t.isAsync, t.allow st, t.wait⟩))

/-- `dispatch`'s handler-resolution step with the request state threaded
through: it reads only the method and handler registry, never the identity
fields. -/
def dispatch_st (st : AuthState) (view : View) (method : String) :
    AuthState × Option PyExc :=
  (st, dispatchResolve view method)

/-! ## Lemmas: gather is schedule-independent -/

/-- Generic slot-filling fold: slot `j` holds `f j` exactly when `j` occurred
in the completion order (and is in range), and is untouched otherwise. -/
theorem foldl_set_getElem? {α : Type} (f : Nat → α) (order : List Nat)
    (init : List α) (j : Nat) :
    (order.foldl (fun acc i => acc.set i (f i)) init)[j]? =
      if j ∈ order ∧ j < init.length then some (f j) else init[j]? := by
  induction order generalizing init with
  | nil => simp
  | cons i rest ih =>
    simp only [List.foldl_cons, ih, List.length_set, List.getElem?_set,
      List.mem_cons]
    rcases Nat.lt_or_ge j init.length with hlen | hlen
    · by_cases hj : j ∈ rest
      · simp [hj, hlen]
      · by_cases hij : i = j
        · subst hij
          simp [hj, hlen]
        · simp [hj, hlen, hij, Ne.symm hij]
    · have h0 : init[j]? = none := List.getElem?_eq_none hlen
      have hnl : ¬ j < init.length := Nat.not_lt.mpr hlen
      by_cases hij : i = j
      · subst hij
        simp [hnl, h0]
      · simp [hnl, h0, hij]

/-- When the completion schedule is a permutation of the task indices (every
task completes exactly once), the gathered result list is the outcome list in
original task order — whatever the schedule. -/
theorem gatherFill_perm (outcomes : List AuthOutcome) (order : List Nat)
    (hperm : order.Perm (List.range outcomes.length)) :
    gatherFill outcomes order = outcomes.map some := by
  apply List.ext_getElem?
  intro j
  unfold gatherFill
  rw [foldl_set_getElem? (fun i => outcomes[i]?) order]
  have hmem : j ∈ order ↔ j < outcomes.length := by
    rw [hperm.mem_iff, List.mem_range]
  rcases Nat.lt_or_ge j outcomes.length with hj | hj
  · rw [if_pos ⟨hmem.mpr hj, by simpa using hj⟩]
    simp [List.getElem?_eq_getElem hj]
  · rw [if_neg (by simp [hmem]; omega)]
    simp [List.getElem?_replicate, List.getElem?_eq_none (by simpa using hj),
      Nat.not_lt.mpr hj]

/-- Under a complete schedule, the schedule-explicit `authenticate` agrees
with the schedule-free embedding. -/
theorem authenticateSched_eq (auths : List Authenticator) (order : List Nat)
    (hperm : order.Perm (List.range auths.length)) :
    authenticateSched auths order = authenticate auths := by
  unfold authenticateSched authenticate
  have hlen : (auths.map (·.outcome)).length = auths.length := by simp
  rw [gatherFill_perm _ order (by rw [hlen]; exact hperm)]
  have hcomp :
      ((fun o => o.getD AuthOutcome.nothing) ∘ some ∘ fun (x : Authenticator) => x.outcome)
        = fun x : Authenticator => x.outcome := by
    funext a; rfl
  simp [List.map_map, hcomp]

/-! ## Lemmas: the selection loop -/

/-- When no outcome raises, the selection loop returns the lowest-index
non-empty pair (or anonymous), matching the spec-side policy. -/
theorem selectResult_spec (auths : List Authenticator) (k : Nat)
    (hno : ∀ a ∈ auths, isExcOutcome a.outcome = false) :
    selectResult (auths.map (·.outcome)) k =
      match specLowestNonEmptyAux k auths with
      | some (i, u, t) => (⟨some i, some u, some t⟩, none)
      | none => (resetState, none) := by
  induction auths generalizing k with
  | nil => rfl
  | cons a rest ih =>
    have ha := hno a (List.mem_cons_self a rest)
    cases h : a.outcome with
    | raiseApi e => rw [h] at ha; simp [isExcOutcome] at ha
    | raiseOther m => rw [h] at ha; simp [isExcOutcome] at ha
    | pair u t => simp [selectResult, specLowestNonEmptyAux, h]
    | nothing =>
      simp only [List.map_cons, selectResult, specLowestNonEmptyAux, h]
      exact ih (k + 1) (fun b hb => hno b (List.mem_cons_of_mem a hb))

/-- The selection loop raises the exception at the first index whose result
is an exception, provided every earlier result was `None`; the identity
fields stay reset.  Later results — successes included — are irrelevant. -/
theorem selectResult_firstExc (l : List AuthOutcome) (k i : Nat)
    (o : AuthOutcome) (hi : l[i]? = some o) (hexc : isExcOutcome o = true)
    (hbefore : ∀ j, j < i → l[j]? = some AuthOutcome.nothing) :
    selectResult l k = (resetState, excOutcomePayload o) := by
  induction l generalizing k i with
  | nil => simp at hi
  | cons a rest ih =>
    cases i with
    | zero =>
      have : a = o := by simpa using hi
      subst this
      cases a with
      | raiseApi e => simp [selectResult, excOutcomePayload]
      | raiseOther m => simp [selectResult, excOutcomePayload]
      | pair u t => simp [isExcOutcome] at hexc
      | nothing => simp [isExcOutcome] at hexc
    | succ n =>
      have h0 : a = AuthOutcome.nothing := by
        simpa using hbefore 0 (Nat.succ_pos n)
      subst h0
      have : selectResult (AuthOutcome.nothing :: rest) k
          = selectResult rest (k + 1) := rfl
      rw [this]
      exact ih (k + 1) n (by simpa using hi)
        (fun j hj => by simpa using hbefore (j + 1) (Nat.succ_lt_succ hj))

/-- The selection loop never raises a `TypeError`. -/
theorem selectResult_no_typeError (l : List AuthOutcome) (k : Nat)
    (msg : String) : (selectResult l k).2 ≠ some (.typeError msg) := by
  induction l generalizing k with
  | nil => simp [selectResult]
  | cons a rest ih =>
    cases a with
    | raiseApi e => simp [selectResult]
    | raiseOther m => simp [selectResult]
    | pair u t => simp [selectResult]
    | nothing => exact ih (k + 1)

/-- The selection loop performs at most one winning-pair write. -/
theorem selectWrites_le_one (l : List AuthOutcome) (k : Nat) :
    (selectWrites l k).length ≤ 1 := by
  induction l generalizing k with
  | nil => simp [selectWrites]
  | cons a rest ih =>
    cases a with
    | raiseApi e => simp [selectWrites]
    | raiseOther m => simp [selectWrites]
    | pair u t => simp [selectWrites]
    | nothing => exact ih (k + 1)

/-- The final identity fields are the reset state with the recorded writes
applied. -/
theorem selectResult_eq_writes (l : List AuthOutcome) (k : Nat) :
    (selectResult l k).1 =
      (selectWrites l k).foldl
        (fun _ w => ⟨some w.1, some w.2.1, some w.2.2⟩) resetState := by
  induction l generalizing k with
  | nil => rfl
  | cons a rest ih =>
    cases a with
    | raiseApi e => rfl
    | raiseOther m => rfl
    | pair u t => rfl
    | nothing => exact ih (k + 1)

/-! ## Lemmas: the permission evaluator -/

/-- The synchronous permission loop raises for the first permission (in its
sublist order) whose check raised or denied. -/
theorem checkSyncPermissions_eq_find (perms : List Permission) :
    checkSyncPermissions perms =
      (perms.find? (fun p => !(p.outcome == PermOutcome.ok true))).map
        nonGrantPayload := by
  induction perms with
  | nil => rfl
  | cons p rest ih =>
    cases h : p.outcome with
    | exc e => simp [checkSyncPermissions, h, List.find?_cons, nonGrantPayload]
    | ok b =>
      cases b with
      | false =>
        simp [checkSyncPermissions, h, List.find?_cons, nonGrantPayload]
      | true => simp [checkSyncPermissions, h, List.find?_cons, ih]

/-- Same characterization for the asynchronous result scan. -/
theorem checkAsyncPermissions_eq_find (perms : List Permission) :
    checkAsyncPermissions perms =
      (perms.find? (fun p => !(p.outcome == PermOutcome.ok true))).map
        nonGrantPayload := by
  induction perms with
  | nil => rfl
  | cons p rest ih =>
    cases h : p.outcome with
    | exc e => simp [checkAsyncPermissions, h, List.find?_cons, nonGrantPayload]
    | ok b =>
      cases b with
      | false =>
        simp [checkAsyncPermissions, h, List.find?_cons, nonGrantPayload]
      | true => simp [checkAsyncPermissions, h, List.find?_cons, ih]

/-- `check_permissions` raises exactly the payload of the first non-granting
permission in combined order (sync results first, then async results, each
in original list order), and succeeds when every permission grants. -/
theorem check_permissions_eq_first (perms : List Permission) :
    check_permissions perms = (firstNonGranting perms).map nonGrantPayload := by
  have hz : check_permissions perms =
      match checkSyncPermissions (perms.filter (fun p => !p.isAsync)) with
      | some e => some e
      | none => checkAsyncPermissions (perms.filter (·.isAsync)) := rfl
  rw [hz, checkSyncPermissions_eq_find, checkAsyncPermissions_eq_find]
  unfold firstNonGranting combinedPerms
  rw [List.find?_append]
  cases h : (perms.filter (fun p => !p.isAsync)).find?
      (fun p => !(p.outcome == PermOutcome.ok true)) with
  | none => simp [h]
  | some p => simp [h]

/-- With no raising permission, the first non-granting permission is the
first denying one. -/
theorem find_nonGrant_of_noexc (l : List Permission)
    (hno : ∀ p ∈ l, isExcPerm p.outcome = false) :
    l.find? (fun p => !(p.outcome == PermOutcome.ok true)) =
      l.find? (fun p => p.outcome == PermOutcome.ok false) := by
  induction l with
  | nil => rfl
  | cons p rest ih =>
    have hp := hno p (List.mem_cons_self p rest)
    have ihr := ih (fun q hq => hno q (List.mem_cons_of_mem p hq))
    cases h : p.outcome with
    | exc e => rw [h] at hp; simp [isExcPerm] at hp
    | ok b =>
      cases b with
      | false => simp [List.find?_cons, h]
      | true => simp [List.find?_cons, h, ihr]

/-! ## Lemmas: the throttle evaluator -/

/-- The collected denied durations are exactly `deniedDurations` (the claim's
order: sync denied waits first, then async denied waits). -/
theorem check_throttles_durations (ts : List Throttle) :
    checkSyncThrottles (ts.filter (fun t => !t.isAsync))
        ++ checkAsyncThrottles (ts.filter (·.isAsync)) =
      deniedDurations ts := rfl

/-- Some throttle denies iff the collected duration list is non-empty. -/
theorem deniedDurations_isEmpty (ts : List Throttle) :
    (deniedDurations ts).isEmpty = (ts.filter (fun t => !t.allow)).isEmpty := by
  rw [Bool.eq_iff_iff]
  unfold deniedDurations
  simp only [List.isEmpty_iff, List.append_eq_nil, List.map_eq_nil_iff,
    List.filter_eq_nil_iff]
  constructor
  · rintro ⟨hs, ha⟩ t ht hd
    by_cases hA : t.isAsync
    · exact ha t (List.mem_filter.mpr ⟨ht, hA⟩) hd
    · exact hs t (List.mem_filter.mpr ⟨ht, by simpa using hA⟩) hd
  · intro h
    constructor
    · intro t ht hd
      exact h t (List.mem_filter.mp ht).1 hd
    · intro t ht hd
      exact h t (List.mem_filter.mp ht).1 hd

/-! ## Claim theorems -/

/-- C1 counterexample: the claim quantifies over every authenticator list in
which no authenticator raises; but a single synchronous authenticator whose
check raises nothing and would return a non-empty pair does not have its
identity resolved — `authenticate()` raises `TypeError` instead. -/
theorem c1_counterexample :
    authenticate [⟨false, AuthOutcome.pair "alice" "tok-a"⟩]
        ≠ specAuthResult [⟨false, AuthOutcome.pair "alice" "tok-a"⟩]
      ∧ authenticate [⟨false, AuthOutcome.pair "alice" "tok-a"⟩]
        = (resetState, some (.typeError typeErrorMsg)) := by
  constructor
  · decide
  · rfl

/-- C1 (amended to lists of coroutine-function authenticators): for every
list of asynchronous authenticators in which no authenticator raises an
exception, `authenticate()` resolves the request identity to the
`(identity, credential)` pair of the lowest-original-index authenticator
returning a non-empty result, independent of the completion schedule of the
gathered tasks; when every authenticator returns an empty result, the stage
succeeds and leaves `user`, `auth` and `_authenticator` unset. -/
theorem c1_authenticate_lowest_index_wins (auths : List Authenticator)
    (order : List Nat)
    (hasync : ∀ a ∈ auths, a.isAsync = true)
    (hnoexc : ∀ a ∈ auths, isExcOutcome a.outcome = false)
    (hperm : order.Perm (List.range auths.length)) :
    authenticateSched auths order = specAuthResult auths := by
  rw [authenticateSched_eq auths order hperm]
  unfold authenticate specAuthResult specLowestNonEmpty
  rw [if_pos (by exact List.all_eq_true.mpr hasync)]
  exact selectResult_spec auths 0 hnoexc

/-- Witness for C1 (spec Scenario A, run under a reversed completion
schedule): the later-indexed authenticator finishes first, yet wins only
because the earlier one returned an empty result. -/
theorem c1_witness :
    authenticateSched
      [⟨true, AuthOutcome.nothing⟩,
       ⟨true, AuthOutcome.pair "test-user" "test-token"⟩] [1, 0]
    = (⟨some 1, some "test-user", some "test-token"⟩, none) := by
  have h := c1_authenticate_lowest_index_wins
    [⟨true, AuthOutcome.nothing⟩,
     ⟨true, AuthOutcome.pair "test-user" "test-token"⟩] [1, 0]
    (by decide) (by decide) (by decide)
  exact h

/-- C10: whenever some authenticator's `authenticate` is not a coroutine
function, `AsyncRequest.authenticate` raises `TypeError` before invoking any
authenticator — the result is independent of every authenticator's outcome —
and the `user`, `auth`, `_authenticator` fields are left reset to `None`. -/
theorem c10_sync_authenticator_type_error (auths : List Authenticator)
    (f : AuthOutcome → AuthOutcome)
    (h : ∃ a ∈ auths, a.isAsync = false) :
    authenticate (auths.map fun a => ⟨a.isAsync, f a.outcome⟩)
      = (resetState, some (.typeError typeErrorMsg)) := by
  unfold authenticate
  rcases h with ⟨a, ha, hf⟩
  rw [if_neg]
  intro hall
  have := List.all_eq_true.mp hall ⟨a.isAsync, f a.outcome⟩
    (List.mem_map_of_mem _ ha)
  simp [hf] at this

/-- Witness for C10: a single synchronous authenticator that would have
returned a non-empty pair; `TypeError` is raised and the fields stay reset. -/
theorem c10_witness :
    authenticate [⟨false, AuthOutcome.pair "u" "t"⟩]
      = (resetState, some (.typeError typeErrorMsg)) :=
  c10_sync_authenticator_type_error [⟨false, AuthOutcome.pair "u" "t"⟩]
    (fun o => o) ⟨⟨false, AuthOutcome.pair "u" "t"⟩, by decide, rfl⟩

/-- C2 counterexample: the claim says synchronous authenticators are executed
first, in order, short-circuiting on a non-empty result, before any
asynchronous one starts; but a list holding one synchronous authenticator
whose check would return a non-empty pair raises `TypeError` instead, and no
identity is ever resolved. -/
theorem c2_counterexample :
    authenticate [⟨false, AuthOutcome.pair "sync-user" "sync-token"⟩]
        = (resetState, some (.typeError typeErrorMsg))
      ∧ (authenticate [⟨false, AuthOutcome.pair "sync-user" "sync-token"⟩]).1.user
        ≠ some "sync-user" := by
  constructor
  · rfl
  · decide

/-- C2 amended: the evaluator performs no sync/async partition of the
authenticator list — it raises `TypeError` exactly when some authenticator is
not a coroutine function, and otherwise starts all authenticators together
and decides from the gathered results (no synchronous-first stage, no
short-circuit). -/
theorem c2_amended_no_partition (auths : List Authenticator) :
    ((authenticate auths).2 = some (.typeError typeErrorMsg)
        ↔ auths.all (·.isAsync) = false)
      ∧ (auths.all (·.isAsync) = true
        → authenticate auths = selectResult (auths.map (·.outcome)) 0) := by
  constructor
  · constructor
    · intro h
      by_cases hall : auths.all (·.isAsync) = true
      · exfalso
        unfold authenticate at h
        rw [if_pos hall] at h
        exact selectResult_no_typeError (auths.map (·.outcome)) 0 typeErrorMsg h
      · simpa using hall
    · intro h
      unfold authenticate
      rw [if_neg (by simp [h])]
  · intro h
    unfold authenticate
    rw [if_pos h]

/-- Witness for C2 amended: a synchronous member forces the `TypeError`, an
all-asynchronous list goes straight to the gathered-result selection. -/
theorem c2_amended_witness :
    (authenticate [⟨false, AuthOutcome.nothing⟩]).2
        = some (.typeError typeErrorMsg)
      ∧ authenticate [⟨true, AuthOutcome.nothing⟩]
        = selectResult [AuthOutcome.nothing] 0 :=
  ⟨(c2_amended_no_partition [⟨false, AuthOutcome.nothing⟩]).1.mpr (by decide),
   (c2_amended_no_partition [⟨true, AuthOutcome.nothing⟩]).2 (by decide)⟩

/-- C6: a raised failure at the lowest decisive original index is the single
error the stage raises, for any completion schedule: if every authenticator
before index `i` returned `None` and the one at `i` raised, then
`authenticate()` raises exactly that exception (an `APIException` such as
`AuthenticationFailed`/`NotAuthenticated`, or any other error — the spec's
`UnexpectedError`), regardless of later-indexed successes or failures, and
the identity fields stay unset. -/
theorem c6_failure_priority_lowest_index (auths : List Authenticator)
    (order : List Nat) (i : Nat) (o : AuthOutcome)
    (hperm : order.Perm (List.range auths.length))
    (hasync : auths.all (·.isAsync) = true)
    (hA : (auths[i]?).map (·.outcome) = some o)
    (hexc : isExcOutcome o = true)
    (hbefore : ∀ j, j < i →
      (auths[j]?).map (·.outcome) = some AuthOutcome.nothing) :
    authenticateSched auths order = (resetState, excOutcomePayload o) := by
  rw [authenticateSched_eq auths order hperm]
  unfold authenticate
  rw [if_pos hasync]
  apply selectResult_firstExc (auths.map (·.outcome)) 0 i o
  · rw [List.getElem?_map]
    exact hA
  · exact hexc
  · intro j hj
    rw [List.getElem?_map]
    exact hbefore j hj

/-- Witness for C6: the failure at index 1 beats the non-empty success at
index 2 (which the scheduler even completes first) and is the one error
raised. -/
theorem c6_witness :
    authenticateSched
      [⟨true, AuthOutcome.nothing⟩,
       ⟨true, AuthOutcome.raiseApi (.authenticationFailed "bad")⟩,
       ⟨true, AuthOutcome.pair "u" "t"⟩] [2, 0, 1]
    = (resetState, some (.apiExc (.authenticationFailed "bad"))) := by
  have h := c6_failure_priority_lowest_index
    [⟨true, AuthOutcome.nothing⟩,
     ⟨true, AuthOutcome.raiseApi (.authenticationFailed "bad")⟩,
     ⟨true, AuthOutcome.pair "u" "t"⟩] [2, 0, 1] 1
    (AuthOutcome.raiseApi (.authenticationFailed "bad"))
    (by decide) (by decide) (by decide) (by decide) (by decide)
  exact h

/-- C3: when no permission check raises, `check_permissions` succeeds exactly
when every permission grants (the empty list trivially succeeds), and
otherwise raises `PermissionDenied` carrying the message and code (optional,
defaulting to null) of the first denying permission in combined order: the
synchronous permissions' results first, then the asynchronous ones, each
group in original list order. -/
theorem c3_check_permissions_first_denial (perms : List Permission)
    (hnoraise : ∀ p ∈ perms, isExcPerm p.outcome = false) :
    check_permissions perms =
      ((combinedPerms perms).find?
          (fun p => p.outcome == PermOutcome.ok false)).map
        permission_denied := by
  rw [check_permissions_eq_first]
  unfold firstNonGranting
  have hcomb : ∀ p ∈ combinedPerms perms, isExcPerm p.outcome = false := by
    intro p hp
    unfold combinedPerms at hp
    rcases List.mem_append.mp hp with h | h
    · exact hnoraise p (List.mem_filter.mp h).1
    · exact hnoraise p (List.mem_filter.mp h).1
  rw [find_nonGrant_of_noexc (combinedPerms perms) hcomb]
  cases h : (combinedPerms perms).find?
      (fun p => p.outcome == PermOutcome.ok false) with
  | none => rfl
  | some p =>
    have hp := List.find?_some h
    have : p.outcome = PermOutcome.ok false := by simpa using hp
    simp [nonGrantPayload, this]

/-- Witness for C3 (spec Scenario B): `[grant, deny("no access", "403")]`
raises `PermissionDenied` with message `"no access"` and code `"403"`. -/
theorem c3_witness :
    check_permissions
      [⟨false, PermOutcome.ok true, none, none⟩,
       ⟨false, PermOutcome.ok false, some "no access", some "403"⟩]
    = some (.apiExc (.permissionDenied (some "no access") (some "403"))) := by
  have h := c3_check_permissions_first_denial
    [⟨false, PermOutcome.ok true, none, none⟩,
     ⟨false, PermOutcome.ok false, some "no access", some "403"⟩]
    (by decide)
  exact h

/-- C5 counterexample: the claim says a raised exception always takes
priority over a plain denial; but with a denying synchronous permission at
index 0 and a raising permission at index 1, `check_permissions` raises the
`PermissionDenied` of the denier, not the exception. -/
theorem c5_counterexample :
    check_permissions
      [⟨false, PermOutcome.ok false, some "m", some "c"⟩,
       ⟨false, PermOutcome.exc (.otherExc "boom"), none, none⟩]
        = some (.apiExc (.permissionDenied (some "m") (some "c")))
      ∧ check_permissions
        [⟨false, PermOutcome.ok false, some "m", some "c"⟩,
         ⟨false, PermOutcome.exc (.otherExc "boom"), none, none⟩]
        ≠ some (.otherExc "boom") := by
  constructor
  · rfl
  · decide

/-- C5 amended: a raised exception is surfaced in preference to a plain
denial only when the raising check precedes every denying check in the
combined scan order (synchronous results first, then asynchronous results,
each group in original list order); in general the first non-granting check
in combined order determines the outcome — its raised exception if it
raised, else `PermissionDenied` with its message and code. -/
theorem c5_amended_combined_order (perms : List Permission) :
    check_permissions perms = (firstNonGranting perms).map nonGrantPayload :=
  check_permissions_eq_first perms

/-- C4: `check_throttles` collects the denying throttles' wait durations
(synchronous throttles' durations first in list order, then asynchronous
ones), filters out the null durations, and raises `Throttled` with
`retryAfter` the maximum of the non-null durations when some throttle denied
(with `retryAfter` unset when every duration was null, since
`max(default=None)` of the empty list is `None`), succeeding silently when no
throttle denied — in particular on the empty list. -/
theorem c4_check_throttles_max_wait (ts : List Throttle) :
    check_throttles ts =
      if (ts.filter (fun t => !t.allow)).isEmpty then none
      else some (.apiExc (.throttled (deniedDurations ts).reduceOption.max?)) := by
  have hz : check_throttles ts =
      if (deniedDurations ts).isEmpty then none
      else some (.apiExc (.throttled (deniedDurations ts).reduceOption.max?)) := rfl
  rw [hz, deniedDurations_isEmpty]

/-- C7: `dispatch` resolves the handler for the request method
case-insensitively (two methods with the same lowercasing resolve
identically); when no handler matches it raises `MethodNotAllowed` carrying
the rejected method name; and when the resolved handler is not a coroutine
function it raises a `TypeError` instead of invoking it. -/
theorem c7_dispatch_handler_resolution (view : View) (m mAlt : String)
    (hlow : lowerStr m = lowerStr mAlt) :
    resolveHandler view m = resolveHandler view mAlt
      ∧ (resolveHandler view m = none
        → dispatchResolve view m = some (.apiExc (.methodNotAllowed m)))
      ∧ (∀ h, resolveHandler view m = some h → h.isAsync = false
        → dispatchResolve view m = some (.typeError "Handler should be async function"))
      ∧ (∀ h, resolveHandler view m = some h → h.isAsync = true
        → dispatchResolve view m = none) := by
  refine ⟨?_, ?_, ?_, ?_⟩
  · unfold resolveHandler
    rw [hlow]
  · intro h
    unfold dispatchResolve
    rw [h]
  · intro h hh hs
    unfold dispatchResolve
    rw [hh]
    simp [hs]
  · intro h hh hs
    unfold dispatchResolve
    rw [hh]
    simp [hs]

/-- Witness for C7 (spec Scenario D): a registry with only a coroutine `get`
handler rejects `"PATCH"` with `MethodNotAllowed("PATCH")`, provides `get`
case-insensitively, and raises `TypeError` for a non-coroutine `post`. -/
theorem c7_witness :
    dispatchResolve
      ⟨defaultMethodNames,
        fun s => if s = "get" then some ⟨true⟩
          else if s = "post" then some ⟨false⟩ else none⟩ "PATCH"
        = some (.apiExc (.methodNotAllowed "PATCH"))
      ∧ resolveHandler
        ⟨defaultMethodNames,
          fun s => if s = "get" then some ⟨true⟩
            else if s = "post" then some ⟨false⟩ else none⟩ "GeT"
        = resolveHandler
          ⟨defaultMethodNames,
            fun s => if s = "get" then some ⟨true⟩
              else if s = "post" then some ⟨false⟩ else none⟩ "get"
      ∧ dispatchResolve
        ⟨defaultMethodNames,
          fun s => if s = "get" then some ⟨true⟩
            else if s = "post" then some ⟨false⟩ else none⟩ "POST"
        = some (.typeError "Handler should be async function") := by
  refine ⟨?_, ?_, ?_⟩
  · exact (c7_dispatch_handler_resolution _ "PATCH" "patch" (by decide)).2.1
      (by decide)
  · exact (c7_dispatch_handler_resolution _ "GeT" "get" (by decide)).1
  · exact (c7_dispatch_handler_resolution _ "POST" "post" (by decide)).2.2.1
      ⟨false⟩ (by decide) rfl

/-- C8: `handle_exception` on a `NotAuthenticated` or `AuthenticationFailed`
exception attaches the authenticate-challenge header and keeps the original
status when one is available, and otherwise coerces the exception's status to
403 (forbidden) — so an authentication failure with no challenge header
yields a forbidden response, not an unauthenticated one. -/
theorem c8_handle_exception_auth_coercion (e : ExcState)
    (header : Option String) (hA : isAuthFailureExc e.exc = true) :
    (headerTruthy header = true
        → handle_exception_auth e header = { e with auth_header := header })
      ∧ (headerTruthy header = false
        → handle_exception_auth e header = { e with status_code := 403 }) := by
  constructor
  · intro h
    unfold handle_exception_auth
    rw [if_pos hA, if_pos h]
  · intro h
    unfold handle_exception_auth
    rw [if_pos hA, if_neg (by simp [h])]

/-- Witness for C8 (spec Scenario E): `AuthenticationFailed("bad token")`
with no challenge header is coerced from 401 to 403; `NotAuthenticated` with
a challenge header keeps 401 and carries the header. -/
theorem c8_witness :
    handle_exception_auth
        ⟨.apiExc (.authenticationFailed "bad token"), 401, none⟩ none
      = ⟨.apiExc (.authenticationFailed "bad token"), 403, none⟩
      ∧ handle_exception_auth
          ⟨.apiExc (.notAuthenticated "auth required"), 401, none⟩
          (some "Bearer")
        = ⟨.apiExc (.notAuthenticated "auth required"), 401, some "Bearer"⟩ :=
  ⟨(c8_handle_exception_auth_coercion
      ⟨.apiExc (.authenticationFailed "bad token"), 401, none⟩ none rfl).2 rfl,
   (c8_handle_exception_auth_coercion
      ⟨.apiExc (.notAuthenticated "auth required"), 401, none⟩
      (some "Bearer") rfl).1 rfl⟩

/-- C9: the identity fields (`user`, `auth`) and the winning-authenticator
reference are written only by the authentication stage, which performs at
most one winning-pair write per request (the final fields being the reset
state with that write applied); the permission evaluator, throttle evaluator
and dispatch step return the request state unchanged, reading it only
through their checks. -/
theorem c9_identity_write_discipline (auths : List Authenticator)
    (st : AuthState) (perms : List PermissionS) (ts : List ThrottleS)
    (view : View) (m : String) :
    (authWrites auths).length ≤ 1
      ∧ (authenticate auths).1 =
        (authWrites auths).foldl
          (fun _ w => ⟨some w.1, some w.2.1, some w.2.2⟩) resetState
      ∧ (check_permissions_st st perms).1 = st
      ∧ (check_throttles_st st ts).1 = st
      ∧ (dispatch_st st view m).1 = st := by
  refine ⟨?_, ?_, rfl, rfl, rfl⟩
  · unfold authWrites
    by_cases h : auths.all (·.isAsync) = true
    · rw [if_pos h]
      exact selectWrites_le_one (auths.map (·.outcome)) 0
    · rw [if_neg h]
      simp
  · unfold authenticate authWrites
    by_cases h : auths.all (·.isAsync) = true
    · rw [if_pos h, if_pos h]
      exact selectResult_eq_writes (auths.map (·.outcome)) 0
    · rw [if_neg h, if_neg h]
      rfl

end DrfAsyncView
